import Mathlib

/-!
Verification development for the screen-cut repository.

We shallowly embed the lifecycle core of the tool: the persistence layer
(`DatabaseManager`, src/unnamed/part_001), the cache manager
(`src/utils/cache.ts`), the retention cleanup manager
(`src/utils/cleanup-manager.ts`), the deletion commands
(src/unnamed/part_004) and the restore command (`src/commands/restore.ts`).

File-system paths constructed by the code always have the shape
`join(dir, name)` where `name` contains no separator, so a path is embedded
as a pair of a directory string and a base name.  The disk is an association
list from paths to byte contents plus a modification time; the SQLite store
is embedded as four lists of rows.  `Date.now()` is passed explicitly as a
`Nat` parameter everywhere the source calls it.
-/

/-- A file-system path, split as `join(dir, name)` (`name` has no slash). -/
structure SPath where
  dir : String
  name : String
deriving DecidableEq, Repr

/-- One on-disk file: its path, byte content, and mtime (ms). -/
structure DiskFile where
  path : SPath
  content : List Nat
  mtime : Nat
deriving DecidableEq, Repr

/-- The file system: a list of files (first entry at a path is current). -/
abbrev Disk := List DiskFile

/-- Row of the `files` table (interface `FileInfo`, part_001 lines 7-12). -/
structure FileInfo where
  path : SPath
  size : Nat
  mtime : Option Nat
  lastAccessed : Nat
deriving DecidableEq, Repr

/-- Row of the `backups` table (interface `BackupInfo`, part_001 lines 14-19). -/
structure BackupInfo where
  originalPath : SPath
  backupPath : SPath
  size : Nat
  createdAt : Nat
deriving DecidableEq, Repr

/-- Row of the `deleted_files` table (interface `DeletedFileInfo`,
part_001 lines 21-26). -/
structure DeletedFileInfo where
  path : SPath
  deletedAt : Nat
  backupPath : SPath
  size : Nat
deriving DecidableEq, Repr

/-- Row of the `settings` table (part_001 lines 64-70). -/
structure SettingRow where
  key : String
  value : String
  updatedAt : Nat
deriving DecidableEq, Repr

/-- The SQLite database contents: the four tables. -/
structure Store where
  files : List FileInfo
  backups : List BackupInfo
  deletedFiles : List DeletedFileInfo
  settings : List SettingRow
deriving DecidableEq, Repr

/-- Whole mutable world: disk plus database. -/
structure World where
  disk : Disk
  store : Store
deriving DecidableEq, Repr

/-! ### File-system primitives (`fs/promises`, `fs`) -/

/-- `existsSync p`. -/
def existsD (d : Disk) (p : SPath) : Bool :=
  d.any (fun e => e.path = p)

/-- Read the content of the file at `p` (`none` models ENOENT). -/
def readD (d : Disk) (p : SPath) : Option (List Nat) :=
  (d.find? (fun e => e.path = p)).map (fun e => e.content)

/-- Write content `c` at path `p` at time `now` (creating or replacing). -/
def writeD (d : Disk) (p : SPath) (c : List Nat) (now : Nat) : Disk :=
  ⟨p, c, now⟩ :: d.filter (fun e => e.path ≠ p)

/-- `unlink p`. -/
def unlinkD (d : Disk) (p : SPath) : Disk :=
  d.filter (fun e => e.path ≠ p)

/-! ### DatabaseManager (src/unnamed/part_001) -/

/-- `addFile` (part_001 lines 143-161): `INSERT OR REPLACE INTO files`,
keyed by `path`. -/
def addFileS (f : FileInfo) (s : Store) : Store :=
  { s with files := f :: s.files.filter (fun r => r.path ≠ f.path) }

/-- `getFile` (part_001 lines 163-180): `SELECT * FROM files WHERE path = ?`. -/
def getFileS (s : Store) (p : SPath) : Option FileInfo :=
  s.files.find? (fun r => r.path = p)

/-- `deleteFile` (part_001 lines 182-194): `DELETE FROM files WHERE path = ?`. -/
def deleteFileS (p : SPath) (s : Store) : Store :=
  { s with files := s.files.filter (fun r => r.path ≠ p) }

/-- `updateFileAccess` (part_001 lines 196-208):
`UPDATE files SET last_accessed = ? WHERE path = ?`. -/
def updateFileAccessS (p : SPath) (t : Nat) (s : Store) : Store :=
  { s with files :=
      s.files.map (fun r => if r.path = p then { r with lastAccessed := t } else r) }

/-- `getFilesByDate` (part_001 lines 210-229):
`SELECT * FROM files WHERE last_accessed < ?`. -/
def getFilesByDateS (s : Store) (cutoffTime : Nat) : List FileInfo :=
  s.files.filter (fun r => r.lastAccessed < cutoffTime)

/-- `getAllFiles` (part_001 lines 231-260). -/
def getAllFilesS (s : Store) : List FileInfo := s.files

/-- `addBackup` (part_001 lines 262-274): plain `INSERT` into the
autoincrement-keyed `backups` table, i.e. a new row is appended. -/
def addBackupS (b : BackupInfo) (s : Store) : Store :=
  { s with backups := s.backups ++ [b] }

/-- Descending order on `createdAt` used by `ORDER BY backup_time DESC`
and by the JS comparator `(a, b) => b.createdAt - a.createdAt`. -/
def newerEq (a b : BackupInfo) : Prop := b.createdAt ≤ a.createdAt

instance : DecidableRel newerEq := fun a b => Nat.decLe _ _

/-- `getBackups()` with no filter (part_001 lines 276-297):
`SELECT * FROM backups ORDER BY backup_time DESC`. -/
def getBackupsS (s : Store) : List BackupInfo :=
  s.backups.insertionSort newerEq

/-- `removeBackup` (part_001 lines 299-308):
`DELETE FROM backups WHERE backup_path = ?`. -/
def removeBackupS (backupPath : SPath) (s : Store) : Store :=
  { s with backups := s.backups.filter (fun b => b.backupPath ≠ backupPath) }

/-- `addDeletedFile` (part_001 lines 310-322): `INSERT OR REPLACE INTO
deleted_files`, keyed by `path`, with `deleted_at = Date.now()`. -/
def addDeletedFileS (p : SPath) (backupPath : SPath) (size now : Nat)
    (s : Store) : Store :=
  { s with deletedFiles :=
      ⟨p, now, backupPath, size⟩ :: s.deletedFiles.filter (fun m => m.path ≠ p) }

/-- `removeFromDeletedFiles` (part_001 lines 345-354):
`DELETE FROM deleted_files WHERE path = ?`. -/
def removeFromDeletedFilesS (p : SPath) (s : Store) : Store :=
  { s with deletedFiles := s.deletedFiles.filter (fun m => m.path ≠ p) }

/-- `getSetting` (part_001 lines 389-399):
`SELECT value FROM settings WHERE key = ?`. -/
def getSettingS (s : Store) (key : String) : Option String :=
  (s.settings.find? (fun r => r.key = key)).map (fun r => r.value)

/-- `setSetting` (part_001 lines 404-416): `INSERT OR REPLACE INTO settings`. -/
def setSettingS (key value : String) (now : Nat) (s : Store) : Store :=
  { s with settings :=
      ⟨key, value, now⟩ :: s.settings.filter (fun r => r.key ≠ key) }

/-- `vacuum` (part_001 lines 382-384): compaction, no observable row change. -/
def vacuumS (s : Store) : Store := s

/-! ### Decimal rendering/parsing of timestamps

JS template interpolation turns `Date.now()` into its decimal digit string
(`` `${safePath}_${Date.now()}` ``, cache.ts line 61) and
`Date.now().toString()` / `parseInt(v, 10)` round-trip the stored
`lastCleanupTime` setting (part_001 lines 421-431).  We model the decimal
rendering of a `Nat` and the base-10 parse. -/

/-- Decimal digits of `n`, most significant first. -/
def natDigits (n : Nat) : List Char :=
  if h : n < 10 then [Nat.digitChar n]
  else natDigits (n / 10) ++ [Nat.digitChar (n % 10)]
  decreasing_by exact Nat.div_lt_self (by omega) (by omega)

/-- Decimal string of `n` (the JS rendering of an integer `Number`),
via the kernel-computable core renderer. -/
def natToString (n : Nat) : String := Nat.repr n

/-- `parseInt(s, 10)` on an all-digit string. -/
def parseNatD (s : String) : Nat :=
  s.data.foldl (fun a c => a * 10 + (c.toNat - 48)) 0

/-! ### CacheManager (src/utils/cache.ts) -/

/-- `originalPath.replace(/[\/\\]/g, '_')` applied to the full path string
(cache.ts lines 60 and 70). -/
def safeName (p : SPath) : String :=
  ⟨(p.dir ++ "/" ++ p.name).data.map (fun c => if c = '/' || c = '\\' then '_' else c)⟩

/-- `getCachePath` (cache.ts lines 59-62):
`join(this.cacheDir, `${safePath}_${Date.now()}`)`.  Note that the name
embeds the clock value **at the time of the call**. -/
def getCachePath (cacheDir : String) (originalPath : SPath) (now : Nat) : SPath :=
  ⟨cacheDir, safeName originalPath ++ "_" ++ natToString now⟩

/-- `findCacheFile` (cache.ts lines 69-76): list the cache directory, keep
names starting with `safePath + '_'`, take the first existing one. -/
def findCacheFile (cacheDir : String) (originalPath : SPath) (d : Disk) :
    Option SPath :=
  ((d.filter (fun e =>
      e.path.dir = cacheDir ∧
        (safeName originalPath ++ "_").isPrefixOf e.path.name)).map
    (fun e => e.path)).head?

/-- `addToCache` (cache.ts lines 84-101): compute the dated cache path, copy
the origin there, then `addFile` an upserted TrackedFile row with
`lastAccessed = Date.now()`.  `none` models the copy throwing because the
origin cannot be read. -/
def addToCacheM (originalPath : SPath) (size now : Nat) (cacheDir : String)
    (w : World) : Option SPath × World :=
  let cachePath := getCachePath cacheDir originalPath now
  match readD w.disk originalPath with
  | none => (none, w)
  | some c =>
      (some cachePath,
        ⟨writeD w.disk cachePath c now,
         addFileS ⟨originalPath, size, none, now⟩ w.store⟩)

/-- `getFromCache` (cache.ts lines 108-138). -/
def getFromCacheM (originalPath : SPath) (now : Nat) (cacheDir : String)
    (w : World) : Option SPath × World :=
  match getFileS w.store originalPath with
  | none => (none, w)
  | some _ =>
    match findCacheFile cacheDir originalPath w.disk with
    | some cachePath =>
        (some cachePath, { w with store := updateFileAccessS originalPath now w.store })
    | none =>
      let cachePath := getCachePath cacheDir originalPath now
      match readD w.disk originalPath with
      | none =>
          -- copyFile threw ENOENT: delete the stale row, report not-found
          (none, { w with store := deleteFileS originalPath w.store })
      | some c =>
          (some cachePath,
            ⟨writeD w.disk cachePath c now,
             updateFileAccessS originalPath now w.store⟩)

/-- `removeFromCache` (cache.ts lines 144-155): logical removal only. -/
def removeFromCacheS (originalPath : SPath) (s : Store) : Store :=
  match getFileS s originalPath with
  | none => s
  | some _ => deleteFileS originalPath s

/-- One iteration of the `cleanup` loop (cache.ts lines 177-183), with a
failure oracle on the per-item `deleteFile` call (a thrown `StoreFailure`).
The error value carries the world at the moment the exception escapes. -/
def cacheCleanupLoop (failDel : SPath → Bool) (now : Nat) (cacheDir : String) :
    List FileInfo → World → Except World World
  | [], w => .ok w
  | f :: rest, w =>
    let cachePath := getCachePath cacheDir f.path now
    let d1 := if existsD w.disk cachePath then unlinkD w.disk cachePath else w.disk
    if failDel f.path then .error ⟨d1, w.store⟩
    else cacheCleanupLoop failDel now cacheDir rest ⟨d1, deleteFileS f.path w.store⟩

/-- `cleanup` (cache.ts lines 172-188) without injected failures:
select rows with `last_accessed < now - maxAge`, then run the loop. -/
def cacheCleanup (maxAge now : Nat) (cacheDir : String) (w : World) : World :=
  let cutoffTime := now - maxAge
  let oldFiles := getFilesByDateS w.store cutoffTime
  match cacheCleanupLoop (fun _ => false) now cacheDir oldFiles w with
  | .ok w' => w'
  | .error w' => w'

/-! ### CleanupManager (src/utils/cleanup-manager.ts) -/

/-- `getLastCleanupTime` (part_001 lines 421-424):
`lastCleanupTime ? parseInt(lastCleanupTime, 10) : 0`. -/
def getLastCleanupTimeS (s : Store) : Nat :=
  match getSettingS s "lastCleanupTime" with
  | some v => parseNatD v
  | none => 0

/-- `updateLastCleanupTime` (part_001 lines 429-431):
`setSetting('lastCleanupTime', Date.now().toString())`. -/
def updateLastCleanupTimeS (now : Nat) (s : Store) : Store :=
  setSettingS "lastCleanupTime" (natToString now) now s

/-- `CleanupManager.cleanupCache` (cleanup-manager.ts lines 44-73): list the
cache directory and unlink every file with `now - mtimeMs > maxCacheAge`. -/
def cleanupCacheCM (now maxCacheAge : Nat) (cacheDir : String) (d : Disk) : Disk :=
  d.filter (fun e => ¬ (e.path.dir = cacheDir ∧ maxCacheAge < now - e.mtime))

/-- Retention predicate of `cleanupBackups` (cleanup-manager.ts line 96):
`now - backup.createdAt > CONFIG.maxBackupAge`. -/
def backupExpired (now maxBackupAge : Nat) (b : BackupInfo) : Bool :=
  maxBackupAge < now - b.createdAt

/-- `CleanupManager.cleanupBackups` (cleanup-manager.ts lines 78-115):
load all backups (already newest-first), sort newest-first again, keep the
first `maxBackupSets`, and among the rest unlink + remove those older than
`maxBackupAge`.  Each item runs inside a try/catch (lines 93-104):
`unlink` on a **missing** backup file throws ENOENT, the catch logs the
error, and `removeBackup` is never reached, so the row is retained. -/
def cleanupBackupsCM (now maxBackupSets maxBackupAge : Nat) (w : World) : World :=
  let backups := (getBackupsS w.store).insertionSort newerEq
  let backupsToDelete := backups.drop maxBackupSets
  backupsToDelete.foldl
    (fun w b =>
      if backupExpired now maxBackupAge b then
        if existsD w.disk b.backupPath then
          ⟨unlinkD w.disk b.backupPath, removeBackupS b.backupPath w.store⟩
        else w
      else w)
    w

/-- `CleanupManager.cleanup` (cleanup-manager.ts lines 31-39):
cache sweep, then backup sweep, then vacuum. -/
def cleanupAllCM (now maxCacheAge maxBackupSets maxBackupAge : Nat)
    (cacheDir : String) (w : World) : World :=
  let w1 : World := ⟨cleanupCacheCM now maxCacheAge cacheDir w.disk, w.store⟩
  let w2 := cleanupBackupsCM now maxBackupSets maxBackupAge w1
  { w2 with store := vacuumS w2.store }

/-- `CleanupManager.checkAndCleanup` (cleanup-manager.ts lines 17-26):
run the sweep and record the timestamp only when forced or when
`now - lastCleanupTime >= cacheCleanupInterval`. -/
def checkAndCleanup (force : Bool) (now interval maxCacheAge maxBackupSets
    maxBackupAge : Nat) (cacheDir : String) (w : World) : World :=
  let lastCleanupTime := getLastCleanupTimeS w.store
  if force = true ∨ interval ≤ now - lastCleanupTime then
    let w1 := cleanupAllCM now maxCacheAge maxBackupSets maxBackupAge cacheDir w
    { w1 with store := updateLastCleanupTimeS now w1.store }
  else w

/-! ### Deletion workflow (src/unnamed/part_004) -/

/-- Result record of `deleteFiles` (part_004 lines 10-14), with the error
objects of failed entries dropped. -/
structure DeleteResult where
  deleted : List SPath
  failed : List SPath
deriving DecidableEq, Repr

/-- The five mutating steps of one iteration of the `deleteFiles` loop
(part_004 lines 50-76), in source order: copy the origin to the dated
backup path (`createBackup`), insert the Backup row, unlink the origin,
insert the DeletedFileMarker, remove the TrackedFile row
(`removeFromCache`). -/
def delSteps (now : Nat) (backupDir : String) (file : SPath) (c : List Nat) :
    List (World → World) :=
  let backupPath : SPath := ⟨backupDir, file.name⟩
  [ fun w => { w with disk := writeD w.disk backupPath c now },
    fun w => { w with store := addBackupS ⟨file, backupPath, c.length, now⟩ w.store },
    fun w => { w with disk := unlinkD w.disk file },
    fun w => { w with store := addDeletedFileS file backupPath c.length now w.store },
    fun w => { w with store := removeFromCacheS file w.store } ]

/-- One iteration of the `deleteFiles` loop executed up to step `k`:
the run is interrupted (an exception is thrown) after `k` of the five
mutating steps have completed.  `k ≥ 5` is the uninterrupted run.
A non-existent origin is skipped before any step (part_004 lines 46-49). -/
def deleteOneUpTo (k : Nat) (now : Nat) (backupDir : String) (file : SPath)
    (w : World) : World :=
  if existsD w.disk file then
    match readD w.disk file with
    | none => w
    | some c => ((delSteps now backupDir file c).take k).foldl (fun w f => f w) w
  else w

/-- One complete, successful iteration of the `deleteFiles` loop. -/
def deleteOne (now : Nat) (backupDir : String) (file : SPath) (w : World) : World :=
  deleteOneUpTo 5 now backupDir file w

/-- The `deleteFiles` batch loop (part_004 lines 44-87) without injected
failures: skip non-existent paths (they are neither deleted nor failed),
run the five steps for existing ones. -/
def deleteFilesM (now : Nat) (backupDir : String) :
    List SPath → World → DeleteResult × World
  | [], w => (⟨[], []⟩, w)
  | file :: rest, w =>
    if existsD w.disk file then
      let w1 := deleteOne now backupDir file w
      let res := deleteFilesM now backupDir rest w1
      ({ res.1 with deleted := file :: res.1.deleted }, res.2)
    else
      deleteFilesM now backupDir rest w

/-- The file-count plan of `deleteCommand` (part_004 lines 152-165):
`actualCount = Math.min(requestedCount, files.length)`, delete the first
`actualCount` entries, and note the shortfall when fewer were available
than requested (line 220-222).  Returns (files to delete, shortfall noted). -/
def dcPlan (requestedCount : Nat) (files : List FileInfo) :
    List FileInfo × Bool :=
  let actualCount := min requestedCount files.length
  (files.take actualCount, decide (actualCount < requestedCount))

/-- One iteration of the `deleteCommand` per-file loop (part_004 lines
177-210): copy to the backup path, insert the Backup row, unlink the
origin.  No DeletedFileMarker is written and no TrackedFile row is removed
in this loop.  Returns `true` on success (`successCount++`). -/
def dcDeleteOne (now : Nat) (backupDir : String) (file : FileInfo)
    (w : World) : Bool × World :=
  match readD w.disk file.path with
  | none => (false, w)   -- copyFile threw; failureCount++
  | some c =>
    let backupPath : SPath := ⟨backupDir, file.path.name⟩
    let d1 := writeD w.disk backupPath c now
    let s1 := addBackupS ⟨file.path, backupPath, file.size, now⟩ w.store
    (true, ⟨unlinkD d1 file.path, s1⟩)

/-- The mutating steps of one `deleteCommand` iteration, for the ordering
claim: copy to backup, insert Backup row, unlink origin. -/
def dcDelSteps (now : Nat) (backupDir : String) (file : FileInfo) (c : List Nat) :
    List (World → World) :=
  let backupPath : SPath := ⟨backupDir, file.path.name⟩
  [ fun w => { w with disk := writeD w.disk backupPath c now },
    fun w => { w with store := addBackupS ⟨file.path, backupPath, file.size, now⟩ w.store },
    fun w => { w with disk := unlinkD w.disk file.path } ]

/-- One `deleteCommand` iteration interrupted after `k` mutating steps. -/
def dcDeleteOneUpTo (k : Nat) (now : Nat) (backupDir : String) (file : FileInfo)
    (w : World) : World :=
  match readD w.disk file.path with
  | none => w
  | some c => ((dcDelSteps now backupDir file c).take k).foldl (fun w f => f w) w

/-! ### Restoration workflow (src/commands/restore.ts) -/

/-- One iteration of the restore loop over recently deleted markers, in the
branch where the backup file exists (restore.ts lines 129-157): copy the
backup to `join(targetDir, basename(file.path))`, `addToCache` the target,
`addFile` a TrackedFile row for the target, remove the DeletedFileMarker.
When the backup file is missing the Trash fallback (an external
collaborator) is not modelled and the item fails with the world unchanged. -/
def restoreOneFromBackup (now : Nat) (targetDir cacheDir : String)
    (m : DeletedFileInfo) (w : World) : Option SPath × World :=
  let targetPath : SPath := ⟨targetDir, m.path.name⟩
  if existsD w.disk m.backupPath then
    match readD w.disk m.backupPath with
    | none => (none, w)
    | some c =>
      let d1 := writeD w.disk targetPath c now
      -- stats = await stat(targetPath)
      let size := c.length
      let w2 := (addToCacheM targetPath size now cacheDir ⟨d1, w.store⟩).2
      let s3 := addFileS ⟨targetPath, size, some now, now⟩ w2.store
      let s4 := removeFromDeletedFilesS m.path s3
      (some targetPath, ⟨w2.disk, s4⟩)
  else (none, w)

/-! ### Concrete sample data used to exercise the definitions -/

/-- A sample origin path. -/
def p1 : SPath := ⟨"/pics", "a.png"⟩

/-- A sample TrackedFile row for `p1`. -/
def f1 : FileInfo := ⟨p1, 3, none, 50⟩

/-- A sample world: `p1` on disk with content `[1, 2, 3]`, tracked. -/
def w1 : World := ⟨[⟨p1, [1, 2, 3], 10⟩], ⟨[f1], [], [], []⟩⟩

/-- Sample backup rows for the retention sweep (newest, middle, oldest). -/
def b95 : BackupInfo := ⟨⟨"/o", "a.png"⟩, ⟨"/bk", "x1"⟩, 1, 95⟩

/-- Backup ranked beyond the count limit but younger than the age limit. -/
def b90 : BackupInfo := ⟨⟨"/o", "b.png"⟩, ⟨"/bk", "x2"⟩, 1, 90⟩

/-- Backup ranked beyond the count limit and older than the age limit. -/
def b50 : BackupInfo := ⟨⟨"/o", "c.png"⟩, ⟨"/bk", "x3"⟩, 1, 50⟩

/-- Sample world for the retention sweep: three backup rows and their
physical backup files. -/
def w4 : World :=
  ⟨[⟨⟨"/bk", "x1"⟩, [1], 0⟩, ⟨⟨"/bk", "x2"⟩, [2], 0⟩, ⟨⟨"/bk", "x3"⟩, [3], 0⟩],
   ⟨[], [b95, b90, b50], [], []⟩⟩

/-- Sample world for the cache cleanup: the artifact for `p1` was created
at time 100 (so its on-disk name embeds `100`), and `p1`'s row has
`lastAccessed = 100`. -/
def w5 : World :=
  ⟨[⟨getCachePath "c" p1 100, [7], 100⟩], ⟨[⟨p1, 1, none, 100⟩], [], [], []⟩⟩

/-- Expired rows for the cache-cleanup failure scenario. -/
def f8a : FileInfo := ⟨p1, 1, none, 0⟩

/-- Second expired row (processed after `f8a` / `f8b`). -/
def f8b : FileInfo := ⟨⟨"/pics", "b.png"⟩, 1, none, 10⟩

/-- Third expired row. -/
def f8c : FileInfo := ⟨⟨"/pics", "c.png"⟩, 1, none, 20⟩

/-- World with three expired tracked rows and an empty cache directory. -/
def w8 : World := ⟨[], ⟨[f8a, f8b, f8c], [], [], []⟩⟩

/-- A deletion marker whose original path lies outside the default
screenshot directory. -/
def m3 : DeletedFileInfo := ⟨⟨"/other", "a.png"⟩, 60, ⟨"/bk", "a.png"⟩, 2⟩

/-- World holding `m3` and its backup file. -/
def w3 : World := ⟨[⟨⟨"/bk", "a.png"⟩, [9, 9], 50⟩], ⟨[], [], [m3], []⟩⟩

/-! ### Lemmas: decimal rendering round-trips -/

theorem digitChar_val (k : Nat) (hk : k < 10) :
    (Nat.digitChar k).toNat - 48 = k := by
  interval_cases k <;> decide

theorem foldl_natDigits (n : Nat) :
    ∀ a : Nat, (natDigits n).foldl (fun a c => a * 10 + (c.toNat - 48)) a =
      a * 10 ^ (natDigits n).length + n := by
  induction n using Nat.strong_induction_on with
  | _ n ih =>
    intro a
    rw [natDigits]
    by_cases h : n < 10
    · simp [h, List.foldl, digitChar_val n h]
    · rw [dif_neg h, List.foldl_append, List.length_append]
      have hdiv : n / 10 < n := Nat.div_lt_self (by omega) (by omega)
      rw [ih (n / 10) hdiv a]
      simp only [List.foldl, List.length_cons, List.length_nil]
      rw [digitChar_val (n % 10) (Nat.mod_lt _ (by omega))]
      have : a * 10 ^ ((natDigits (n / 10)).length + (0 + 1)) =
          a * 10 ^ (natDigits (n / 10)).length * 10 := by ring
      rw [this, Nat.add_mul]
      omega

theorem toDigitsCore_eq_natDigits (fuel : Nat) :
    ∀ (n : Nat) (ds : List Char), n < fuel →
      Nat.toDigitsCore 10 fuel n ds = natDigits n ++ ds := by
  induction fuel with
  | zero => intro n ds h; omega
  | succ f ih =>
    intro n ds h
    by_cases h10 : n < 10
    · have hdiv0 : n / 10 = 0 := Nat.div_eq_of_lt h10
      rw [Nat.toDigitsCore, natDigits]
      simp [hdiv0, h10, Nat.mod_eq_of_lt h10]
    · have hdiv : n / 10 < n := Nat.div_lt_self (by omega) (by omega)
      have hdivne : ¬ (n / 10 = 0) := by
        intro h0
        have := Nat.div_eq_of_lt (by omega : n < 10)
        omega
      rw [Nat.toDigitsCore]
      simp only [hdivne, if_false]
      rw [ih (n / 10) _ (by omega)]
      have hN : natDigits n = natDigits (n / 10) ++ [Nat.digitChar (n % 10)] := by
        rw [natDigits]
        exact dif_neg h10
      rw [hN]
      simp [List.append_assoc]

theorem natToString_eq_natDigits (n : Nat) : natToString n = ⟨natDigits n⟩ := by
  show Nat.repr n = _
  rw [Nat.repr, Nat.toDigits, toDigitsCore_eq_natDigits (n + 1) n [] (by omega)]
  simp [List.asString]

theorem parseNatD_natToString (n : Nat) : parseNatD (natToString n) = n := by
  have h := foldl_natDigits n 0
  rw [natToString_eq_natDigits]
  simpa [parseNatD] using h

theorem natToString_injective : Function.Injective natToString := by
  intro a b h
  have ha := parseNatD_natToString a
  have hb := parseNatD_natToString b
  rw [h] at ha
  omega

/-! ### Basic lemmas about the primitives -/

theorem find?_filter_of_ne {α : Type} (l : List α) (f : α → SPath) (p q : SPath)
    (h : q ≠ p) :
    (l.filter (fun e => f e ≠ p)).find? (fun e => f e = q) =
      l.find? (fun e => f e = q) := by
  induction l with
  | nil => rfl
  | cons e rest ih =>
    rw [List.filter_cons]
    by_cases hp : f e = p
    · have hq' : (decide (f e = q)) = false :=
        decide_eq_false (fun hq => h (hq ▸ hp ▸ rfl))
      rw [if_neg (by simp [hp])]
      simp only [List.find?_cons, hq']
      exact ih
    · rw [if_pos (by simp [hp])]
      by_cases hq : f e = q
      · have hq' : (decide (f e = q)) = true := decide_eq_true hq
        simp only [List.find?_cons, hq']
      · have hq' : (decide (f e = q)) = false := decide_eq_false hq
        simp only [List.find?_cons, hq']
        exact ih

theorem find?_filter_self_none {α : Type} (l : List α) (f : α → SPath) (p : SPath) :
    (l.filter (fun e => f e ≠ p)).find? (fun e => f e = p) = none := by
  induction l with
  | nil => rfl
  | cons e rest ih =>
    rw [List.filter_cons]
    by_cases hp : f e = p
    · rw [if_neg (by simp [hp])]
      exact ih
    · rw [if_pos (by simp [hp])]
      rw [List.find?_cons, decide_eq_false hp]
      exact ih

theorem any_filter_of_ne {α : Type} (l : List α) (f : α → SPath) (p q : SPath)
    (h : q ≠ p) :
    (l.filter (fun e => f e ≠ p)).any (fun e => f e = q) =
      l.any (fun e => f e = q) := by
  rw [Bool.eq_iff_iff]
  simp only [List.any_eq_true, List.mem_filter, decide_eq_true_eq]
  constructor
  · rintro ⟨e, ⟨he, -⟩, hq⟩
    exact ⟨e, he, hq⟩
  · rintro ⟨e, he, hq⟩
    exact ⟨e, ⟨he, by simpa [hq] using h⟩, hq⟩

theorem any_filter_self_false {α : Type} (l : List α) (f : α → SPath) (p : SPath) :
    (l.filter (fun e => f e ≠ p)).any (fun e => f e = p) = false := by
  rw [Bool.eq_false_iff]
  intro hx
  simp only [List.any_eq_true, List.mem_filter, decide_eq_true_eq] at hx
  obtain ⟨e, ⟨-, hne⟩, he⟩ := hx
  exact hne he

theorem existsD_filter_ne {d : Disk} {p q : SPath} (h : q ≠ p) :
    existsD (d.filter (fun e => e.path ≠ p)) q = existsD d q :=
  any_filter_of_ne d (fun e => e.path) p q h

theorem existsD_writeD_self (d : Disk) (p : SPath) (c : List Nat) (t : Nat) :
    existsD (writeD d p c t) p = true := by
  simp [existsD, writeD]

theorem existsD_writeD_ne {d : Disk} {p q : SPath} (c : List Nat) (t : Nat)
    (h : q ≠ p) : existsD (writeD d p c t) q = existsD d q := by
  have hpq : ¬ (p = q) := fun h' => h (Eq.symm h')
  simp only [existsD, writeD, List.any_cons]
  rw [any_filter_of_ne d (fun e => e.path) p q h]
  simp [existsD, hpq]

theorem existsD_unlinkD_self (d : Disk) (p : SPath) :
    existsD (unlinkD d p) p = false :=
  any_filter_self_false d (fun e => e.path) p

theorem existsD_unlinkD_ne {d : Disk} {p q : SPath} (h : q ≠ p) :
    existsD (unlinkD d p) q = existsD d q :=
  any_filter_of_ne d (fun e => e.path) p q h

theorem readD_writeD_self (d : Disk) (p : SPath) (c : List Nat) (t : Nat) :
    readD (writeD d p c t) p = some c := by
  simp [readD, writeD, List.find?_cons]

theorem readD_writeD_ne {d : Disk} {p q : SPath} (c : List Nat) (t : Nat)
    (h : q ≠ p) : readD (writeD d p c t) q = readD d q := by
  have hpq : ¬ (p = q) := fun h' => h (Eq.symm h')
  simp only [readD, writeD, List.find?_cons]
  rw [show (decide ((DiskFile.mk p c t).path = q)) = false by simp [hpq]]
  simp only [cond_false]
  rw [find?_filter_of_ne d (fun e => e.path) p q h]

theorem readD_unlinkD_ne {d : Disk} {p q : SPath} (h : q ≠ p) :
    readD (unlinkD d p) q = readD d q := by
  simp only [readD, unlinkD]
  rw [find?_filter_of_ne d (fun e => e.path) p q h]

theorem existsD_iff_readD (d : Disk) (p : SPath) :
    existsD d p = true ↔ ∃ c, readD d p = some c := by
  induction d with
  | nil => simp [existsD, readD]
  | cons e rest ih =>
    by_cases he : e.path = p <;>
      simp_all [existsD, readD, List.any_cons, List.find?_cons]

theorem getFileS_addFileS_self (f : FileInfo) (s : Store) :
    getFileS (addFileS f s) f.path = some f := by
  simp [getFileS, addFileS, List.find?_cons]

theorem getFileS_addFileS_ne (f : FileInfo) (s : Store) {q : SPath}
    (h : q ≠ f.path) : getFileS (addFileS f s) q = getFileS s q := by
  have hfq : ¬ (f.path = q) := fun h' => h (Eq.symm h')
  simp only [getFileS, addFileS, List.find?_cons]
  rw [show (decide (f.path = q)) = false by simp [hfq]]
  simp only [cond_false]
  rw [find?_filter_of_ne s.files (fun r => r.path) f.path q h]

theorem getFileS_deleteFileS_self (p : SPath) (s : Store) :
    getFileS (deleteFileS p s) p = none :=
  find?_filter_self_none s.files (fun r => r.path) p

theorem getFileS_deleteFileS_ne (p : SPath) (s : Store) {q : SPath}
    (h : q ≠ p) : getFileS (deleteFileS p s) q = getFileS s q :=
  find?_filter_of_ne s.files (fun r => r.path) p q h

theorem getFileS_updateFileAccessS (p : SPath) (t : Nat) (s : Store) :
    getFileS (updateFileAccessS p t s) p =
      (getFileS s p).map (fun f => { f with lastAccessed := t }) := by
  simp only [getFileS, updateFileAccessS]
  induction s.files with
  | nil => rfl
  | cons r rest ih =>
    by_cases hr : r.path = p <;>
      simp_all [List.find?_cons]

theorem existsD_readD {d : Disk} {p : SPath} (h : existsD d p = true) :
    ∃ c, readD d p = some c := (existsD_iff_readD d p).1 h

theorem getSettingS_setSettingS_self (k v : String) (now : Nat) (s : Store) :
    getSettingS (setSettingS k v now s) k = some v := by
  simp [getSettingS, setSettingS, List.find?_cons]

theorem getLastCleanupTimeS_update (now : Nat) (s : Store) :
    getLastCleanupTimeS (updateLastCleanupTimeS now s) = now := by
  simp [getLastCleanupTimeS, updateLastCleanupTimeS,
    getSettingS_setSettingS_self, parseNatD_natToString]

/-! ### C1: backup is created before the origin is removed -/

theorem backups_removeFromCacheS (p : SPath) (s : Store) :
    (removeFromCacheS p s).backups = s.backups := by
  unfold removeFromCacheS
  cases getFileS s p <;> rfl

/-- **C1.** For every deletion run interrupted after any number `k` of its
mutating steps (both the `deleteFiles` loop and the `deleteCommand` loop),
whenever the origin file has been unlinked, or the TrackedFile row has been
removed, the physical backup copy already exists on disk and the Backup row
is already in the store: backup creation strictly precedes origin removal
and row removal at every failure point. -/
theorem claim_C1_backup_write_ahead
    (k now : Nat) (backupDir : String) (file : SPath) (fi : FileInfo) (w : World)
    (hda : existsD w.disk file = true)
    (hbp : SPath.mk backupDir file.name ≠ file)
    (hfi : fi.path = file) :
    ((existsD (deleteOneUpTo k now backupDir file w).disk file = false →
        existsD (deleteOneUpTo k now backupDir file w).disk ⟨backupDir, file.name⟩ = true ∧
        ∃ b ∈ (deleteOneUpTo k now backupDir file w).store.backups,
          b.originalPath = file ∧ b.backupPath = SPath.mk backupDir file.name) ∧
     ((getFileS w.store file).isSome = true →
      (getFileS (deleteOneUpTo k now backupDir file w).store file).isSome = false →
        existsD (deleteOneUpTo k now backupDir file w).disk ⟨backupDir, file.name⟩ = true ∧
        ∃ b ∈ (deleteOneUpTo k now backupDir file w).store.backups,
          b.originalPath = file ∧ b.backupPath = SPath.mk backupDir file.name)) ∧
    (existsD (dcDeleteOneUpTo k now backupDir fi w).disk file = false →
        existsD (dcDeleteOneUpTo k now backupDir fi w).disk ⟨backupDir, file.name⟩ = true ∧
        ∃ b ∈ (dcDeleteOneUpTo k now backupDir fi w).store.backups,
          b.originalPath = fi.path ∧ b.backupPath = SPath.mk backupDir file.name) := by
  obtain ⟨c, hc⟩ := existsD_readD hda
  have hfb : file ≠ SPath.mk backupDir file.name := fun h => hbp (Eq.symm h)
  have hcfi : readD w.disk fi.path = some c := by rw [hfi]; exact hc
  simp only [deleteOneUpTo, dcDeleteOneUpTo, hda, hc, hcfi, if_true]
  rcases k with _ | _ | _ | _ | _ | k
  · -- k = 0: nothing has run
    simp only [List.take, List.foldl]
    refine ⟨⟨?_, ?_⟩, ?_⟩
    · intro h1
      rw [hda] at h1; cases h1
    · intro h1 h2
      rw [h1] at h2; cases h2
    · intro h1
      rw [hda] at h1; cases h1
  · -- k = 1: only the backup copy has run
    simp only [delSteps, dcDelSteps, List.take, List.foldl]
    refine ⟨⟨?_, ?_⟩, ?_⟩
    · intro h1
      rw [existsD_writeD_ne _ _ hfb, hda] at h1
      cases h1
    · intro h1 h2
      rw [h1] at h2; cases h2
    · intro h1
      rw [hfi, existsD_writeD_ne _ _ hfb, hda] at h1
      cases h1
  · -- k = 2: backup copy + Backup row
    simp only [delSteps, dcDelSteps, List.take, List.foldl]
    refine ⟨⟨?_, ?_⟩, ?_⟩
    · intro h1
      rw [existsD_writeD_ne _ _ hfb, hda] at h1
      cases h1
    · intro h1 h2
      simp only [getFileS, addBackupS] at h2
      rw [show ({ w.store with backups := w.store.backups ++ [⟨file, ⟨backupDir, file.name⟩, c.length, now⟩] } : Store).files = w.store.files from rfl] at h2
      simp only [getFileS] at h1
      rw [h1] at h2; cases h2
    · intro h1
      rw [hfi, existsD_writeD_ne _ _ hfb, hda] at h1
      cases h1
  · -- k = 3: backup copy + row + unlink: conclusions hold
    simp only [delSteps, dcDelSteps, List.take, List.foldl]
    refine ⟨⟨?_, ?_⟩, ?_⟩
    · intro _
      refine ⟨?_, ⟨file, ⟨backupDir, file.name⟩, c.length, now⟩, by simp [addBackupS], rfl, rfl⟩
      rw [existsD_unlinkD_ne hbp]
      exact existsD_writeD_self _ _ _ _
    · intro _ _
      refine ⟨?_, ⟨file, ⟨backupDir, file.name⟩, c.length, now⟩, by simp [addBackupS], rfl, rfl⟩
      rw [existsD_unlinkD_ne hbp]
      exact existsD_writeD_self _ _ _ _
    · intro _
      refine ⟨?_, ⟨fi.path, ⟨backupDir, fi.path.name⟩, fi.size, now⟩, by simp [addBackupS], rfl, by rw [hfi]⟩
      rw [hfi, existsD_unlinkD_ne hbp]
      exact existsD_writeD_self _ _ _ _
  · -- k = 4: + DeletedFileMarker
    simp only [delSteps, dcDelSteps, List.take, List.foldl]
    refine ⟨⟨?_, ?_⟩, ?_⟩
    · intro _
      refine ⟨?_, ⟨file, ⟨backupDir, file.name⟩, c.length, now⟩,
        by simp [addBackupS, addDeletedFileS], rfl, rfl⟩
      rw [existsD_unlinkD_ne hbp]
      exact existsD_writeD_self _ _ _ _
    · intro _ _
      refine ⟨?_, ⟨file, ⟨backupDir, file.name⟩, c.length, now⟩,
        by simp [addBackupS, addDeletedFileS], rfl, rfl⟩
      rw [existsD_unlinkD_ne hbp]
      exact existsD_writeD_self _ _ _ _
    · intro _
      refine ⟨?_, ⟨fi.path, ⟨backupDir, fi.path.name⟩, fi.size, now⟩, by simp [addBackupS], rfl, by rw [hfi]⟩
      rw [hfi, existsD_unlinkD_ne hbp]
      exact existsD_writeD_self _ _ _ _
  · -- k ≥ 5: the full run
    simp only [delSteps, dcDelSteps, List.take, List.take_nil, List.foldl,
      List.foldl_nil]
    refine ⟨⟨?_, ?_⟩, ?_⟩
    · intro _
      refine ⟨?_, ⟨file, ⟨backupDir, file.name⟩, c.length, now⟩, ?_, rfl, rfl⟩
      · rw [existsD_unlinkD_ne hbp]
        exact existsD_writeD_self _ _ _ _
      · rw [backups_removeFromCacheS]
        simp [addDeletedFileS, addBackupS]
    · intro _ _
      refine ⟨?_, ⟨file, ⟨backupDir, file.name⟩, c.length, now⟩, ?_, rfl, rfl⟩
      · rw [existsD_unlinkD_ne hbp]
        exact existsD_writeD_self _ _ _ _
      · rw [backups_removeFromCacheS]
        simp [addDeletedFileS, addBackupS]
    · intro _
      refine ⟨?_, ⟨fi.path, ⟨backupDir, fi.path.name⟩, fi.size, now⟩,
        by simp [addBackupS], rfl, by rw [hfi]⟩
      rw [hfi, existsD_unlinkD_ne hbp]
      exact existsD_writeD_self _ _ _ _

/-- Witness for C1 at a concrete input (interrupted after step 3 of 5). -/
theorem claim_C1_backup_write_ahead_witness :
    existsD w1.disk p1 = true ∧
    (SPath.mk "/bk" p1.name ≠ p1) ∧
    f1.path = p1 ∧
    (((existsD (deleteOneUpTo 3 100 "/bk" p1 w1).disk p1 = false →
        existsD (deleteOneUpTo 3 100 "/bk" p1 w1).disk ⟨"/bk", p1.name⟩ = true ∧
        ∃ b ∈ (deleteOneUpTo 3 100 "/bk" p1 w1).store.backups,
          b.originalPath = p1 ∧ b.backupPath = SPath.mk "/bk" p1.name) ∧
      ((getFileS w1.store p1).isSome = true →
       (getFileS (deleteOneUpTo 3 100 "/bk" p1 w1).store p1).isSome = false →
        existsD (deleteOneUpTo 3 100 "/bk" p1 w1).disk ⟨"/bk", p1.name⟩ = true ∧
        ∃ b ∈ (deleteOneUpTo 3 100 "/bk" p1 w1).store.backups,
          b.originalPath = p1 ∧ b.backupPath = SPath.mk "/bk" p1.name)) ∧
     (existsD (dcDeleteOneUpTo 3 100 "/bk" f1 w1).disk p1 = false →
        existsD (dcDeleteOneUpTo 3 100 "/bk" f1 w1).disk ⟨"/bk", p1.name⟩ = true ∧
        ∃ b ∈ (dcDeleteOneUpTo 3 100 "/bk" f1 w1).store.backups,
          b.originalPath = f1.path ∧ b.backupPath = SPath.mk "/bk" p1.name)) :=
  ⟨by decide, by decide, by decide,
    claim_C1_backup_write_ahead 3 100 "/bk" p1 f1 w1 (by decide) (by decide)
      (by decide)⟩

/-! ### C2: post-state of a successful delete -/

theorem deletedFiles_removeFromCacheS (p : SPath) (s : Store) :
    (removeFromCacheS p s).deletedFiles = s.deletedFiles := by
  unfold removeFromCacheS
  cases getFileS s p <;> rfl

theorem getFileS_removeFromCacheS_self (p : SPath) (s : Store) :
    getFileS (removeFromCacheS p s) p = none := by
  unfold removeFromCacheS
  cases h : getFileS s p
  · exact h
  · exact getFileS_deleteFileS_self p s

/-- **C2, counterexample.**  The claim quantifies over every successful
delete, including the `deleteCommand` per-file loop (part_004 lines
177-210).  At a concrete input that loop succeeds (origin unlinked, success
counted), yet afterwards the store holds **no** DeletedFileMarker for the
path and the TrackedFile row is **still present** — contradicting the
claimed post-state. -/
theorem claim_C2_delete_postconditions_counterexample :
    (dcDeleteOne 100 "/bk" f1 w1).1 = true ∧
    existsD (dcDeleteOne 100 "/bk" f1 w1).2.disk p1 = false ∧
    (dcDeleteOne 100 "/bk" f1 w1).2.store.deletedFiles = [] ∧
    getFileS (dcDeleteOne 100 "/bk" f1 w1).2.store p1 = some f1 := by
  decide

/-- **C2, amended.**  For deletes performed by the `deleteFiles` batch
workflow (part_004 lines 44-87), the claimed post-state does hold: after a
successful delete of an existing origin `p` the store has a Backup row with
`originalPath = p` and a DeletedFileMarker with `path = p`, no TrackedFile
row for `p` remains, and the file at `p` is gone from disk. -/
theorem claim_C2_delete_postconditions
    (now : Nat) (backupDir : String) (p : SPath) (w : World)
    (hda : existsD w.disk p = true) :
    (∃ b ∈ (deleteOne now backupDir p w).store.backups, b.originalPath = p) ∧
    (∃ m ∈ (deleteOne now backupDir p w).store.deletedFiles, m.path = p) ∧
    getFileS (deleteOne now backupDir p w).store p = none ∧
    existsD (deleteOne now backupDir p w).disk p = false := by
  obtain ⟨c, hc⟩ := existsD_readD hda
  simp only [deleteOne, deleteOneUpTo, hda, hc, if_true, delSteps, List.take,
    List.take_nil, List.foldl, List.foldl_nil]
  refine ⟨?_, ?_, ?_, ?_⟩
  · refine ⟨⟨p, ⟨backupDir, p.name⟩, c.length, now⟩, ?_, rfl⟩
    rw [backups_removeFromCacheS]
    simp [addDeletedFileS, addBackupS]
  · refine ⟨⟨p, now, ⟨backupDir, p.name⟩, c.length⟩, ?_, rfl⟩
    rw [deletedFiles_removeFromCacheS]
    simp [addDeletedFileS]
  · exact getFileS_removeFromCacheS_self _ _
  · exact existsD_unlinkD_self _ _

/-- Witness for the amended C2 theorem at a concrete input. -/
theorem claim_C2_delete_postconditions_witness :
    existsD w1.disk p1 = true ∧
    ((∃ b ∈ (deleteOne 100 "/bk" p1 w1).store.backups, b.originalPath = p1) ∧
     (∃ m ∈ (deleteOne 100 "/bk" p1 w1).store.deletedFiles, m.path = p1) ∧
     getFileS (deleteOne 100 "/bk" p1 w1).store p1 = none ∧
     existsD (deleteOne 100 "/bk" p1 w1).disk p1 = false) :=
  ⟨by decide, claim_C2_delete_postconditions 100 "/bk" p1 w1 (by decide)⟩

/-! ### C9: non-existent paths are skipped; shortfall is reported -/

theorem existsD_deleteOne_ne (now : Nat) (backupDir : String) {f g : SPath}
    (w : World) (hfg : g ≠ f) (hgd : g.dir ≠ backupDir) :
    existsD (deleteOne now backupDir f w).disk g = existsD w.disk g := by
  unfold deleteOne deleteOneUpTo
  by_cases hda : existsD w.disk f = true
  · obtain ⟨c, hc⟩ := existsD_readD hda
    simp only [hda, hc, if_true, delSteps, List.take, List.take_nil,
      List.foldl, List.foldl_nil]
    have hbp : g ≠ SPath.mk backupDir f.name := by
      intro h
      exact hgd (by rw [h])
    rw [existsD_unlinkD_ne hfg, existsD_writeD_ne _ _ hbp]
  · simp only [Bool.not_eq_true] at hda
    simp [hda]

/-- **C9.**  (i) The `deleteFiles` batch skips paths that do not exist on
disk: they appear in neither the `deleted` nor the `failed` list, the rest
of the batch is still processed, and the deleted set is exactly the
requested paths that existed.  (ii) The `deleteCommand` plan: requesting
more files than exist selects exactly the available files and sets the
shortfall note instead of erroring. -/
theorem claim_C9_skip_nonexistent_and_shortfall
    (now : Nat) (backupDir : String) (files : List SPath) (w : World)
    (hnd : files.Nodup)
    (hdir : ∀ g ∈ files, g.dir ≠ backupDir) :
    ((deleteFilesM now backupDir files w).1.failed = [] ∧
     (deleteFilesM now backupDir files w).1.deleted =
       files.filter (fun f => existsD w.disk f)) ∧
    (∀ (requestedCount : Nat) (dbFiles : List FileInfo),
      dbFiles.length < requestedCount →
        (dcPlan requestedCount dbFiles).1 = dbFiles ∧
        (dcPlan requestedCount dbFiles).2 = true) := by
  constructor
  · induction files generalizing w with
    | nil => simp [deleteFilesM]
    | cons f rest ih =>
      have hnd' : rest.Nodup := hnd.of_cons
      have hdir' : ∀ g ∈ rest, g.dir ≠ backupDir :=
        fun g hg => hdir g (List.mem_cons_of_mem f hg)
      by_cases hda : existsD w.disk f = true
      · have hih := ih (deleteOne now backupDir f w) hnd' hdir'
        have hfix :
            rest.filter (fun g => existsD (deleteOne now backupDir f w).disk g) =
              rest.filter (fun g => existsD w.disk g) := by
          apply List.filter_congr
          intro g hg
          have hfg : g ≠ f := by
            intro h
            exact (List.nodup_cons.1 hnd).1 (h ▸ hg)
          rw [existsD_deleteOne_ne now backupDir w hfg (hdir' g hg)]
        simp only [deleteFilesM, hda, if_true, List.filter_cons, hda]
        refine ⟨hih.1, ?_⟩
        rw [hih.2, hfix]
      · simp only [Bool.not_eq_true] at hda
        have hih := ih w hnd' hdir'
        simp only [deleteFilesM, hda, List.filter_cons]
        simpa [hda] using hih
  · intro requestedCount dbFiles h
    have hmin : min requestedCount dbFiles.length = dbFiles.length :=
      Nat.min_eq_right (Nat.le_of_lt h)
    constructor
    · simp [dcPlan, hmin]
    · simp [dcPlan, hmin, h]

/-- Witness for C9: a two-file batch where only one file exists, and a
request for 3 files when only 1 is available. -/
theorem claim_C9_skip_nonexistent_and_shortfall_witness :
    ([p1, ⟨"/pics", "gone.png"⟩] : List SPath).Nodup ∧
    (∀ g ∈ ([p1, ⟨"/pics", "gone.png"⟩] : List SPath), g.dir ≠ "/bk") ∧
    (((deleteFilesM 100 "/bk" [p1, ⟨"/pics", "gone.png"⟩] w1).1.failed = [] ∧
      (deleteFilesM 100 "/bk" [p1, ⟨"/pics", "gone.png"⟩] w1).1.deleted =
        ([p1, ⟨"/pics", "gone.png"⟩] : List SPath).filter
          (fun f => existsD w1.disk f)) ∧
     (∀ (requestedCount : Nat) (dbFiles : List FileInfo),
        dbFiles.length < requestedCount →
          (dcPlan requestedCount dbFiles).1 = dbFiles ∧
          (dcPlan requestedCount dbFiles).2 = true)) :=
  ⟨by decide, by decide,
    claim_C9_skip_nonexistent_and_shortfall 100 "/bk"
      [p1, ⟨"/pics", "gone.png"⟩] w1 (by decide) (by decide)⟩

/-! ### C4: count+age compound retention policy -/

theorem existsD_filter_notmem (d : Disk) (ps : List SPath) {p : SPath}
    (hp : p ∈ ps) :
    existsD (d.filter (fun e => e.path ∉ ps)) p = false := by
  rw [Bool.eq_false_iff]
  intro hx
  simp only [existsD, List.any_eq_true, List.mem_filter, decide_eq_true_eq] at hx
  obtain ⟨e, ⟨-, hnp⟩, hep⟩ := hx
  exact hnp (hep ▸ hp)

theorem existsD_filter_keep (d : Disk) (ps : List SPath) {p : SPath}
    (hp : p ∉ ps) :
    existsD (d.filter (fun e => e.path ∉ ps)) p = existsD d p := by
  rw [Bool.eq_iff_iff]
  simp only [existsD, List.any_eq_true, List.mem_filter, decide_eq_true_eq]
  constructor
  · rintro ⟨e, ⟨he, -⟩, hq⟩
    exact ⟨e, he, hq⟩
  · rintro ⟨e, he, hq⟩
    exact ⟨e, ⟨he, by rw [hq]; exact hp⟩, hq⟩

/-- The retention fold of `cleanupBackups` removes, from disk and from the
`backups` table, exactly the backup paths of the expired entries of its
worklist, provided the worklist's backup paths are pairwise distinct and
every expired entry's backup file is on disk (otherwise its `unlink`
throws and the row is retained). -/
theorem retentionFold_char (now maxAge : Nat) (l : List BackupInfo) (w : World)
    (hdl : l.Pairwise (fun a b => a.backupPath ≠ b.backupPath))
    (hex : ∀ b ∈ l, backupExpired now maxAge b = true →
      existsD w.disk b.backupPath = true) :
    l.foldl
      (fun w b =>
        if backupExpired now maxAge b then
          if existsD w.disk b.backupPath then
            (⟨unlinkD w.disk b.backupPath, removeBackupS b.backupPath w.store⟩ : World)
          else w
        else w)
      w =
    ⟨w.disk.filter (fun e =>
        e.path ∉ (l.filter (backupExpired now maxAge)).map (fun b => b.backupPath)),
     { w.store with backups := w.store.backups.filter (fun b =>
        b.backupPath ∉ (l.filter (backupExpired now maxAge)).map (fun b => b.backupPath)) }⟩ := by
  induction l generalizing w with
  | nil =>
    simp only [List.foldl_nil, List.filter_nil, List.map_nil, List.not_mem_nil,
      not_false_eq_true, decide_True, List.filter_true]
  | cons b rest ih =>
    have hdl' : rest.Pairwise (fun a b => a.backupPath ≠ b.backupPath) :=
      (List.pairwise_cons.1 hdl).2
    have hhead : ∀ c ∈ rest, b.backupPath ≠ c.backupPath :=
      (List.pairwise_cons.1 hdl).1
    by_cases hexp : backupExpired now maxAge b = true
    · have hexb : existsD w.disk b.backupPath = true :=
        hex b (List.mem_cons_self b rest) hexp
      have hex' : ∀ c ∈ rest, backupExpired now maxAge c = true →
          existsD (unlinkD w.disk b.backupPath) c.backupPath = true := by
        intro c hc hcexp
        rw [existsD_unlinkD_ne (Ne.symm (hhead c hc))]
        exact hex c (List.mem_cons_of_mem b hc) hcexp
      rw [List.foldl_cons, if_pos hexp, if_pos hexb,
        ih ⟨unlinkD w.disk b.backupPath, removeBackupS b.backupPath w.store⟩
          hdl' hex',
        List.filter_cons, if_pos (by simp [hexp])]
      simp only [List.map_cons, World.mk.injEq]
      constructor
      · rw [unlinkD, List.filter_filter]
        apply List.filter_congr
        intro e _
        rw [Bool.eq_iff_iff]
        simp [List.mem_cons, not_or, and_comm]
      · rw [removeBackupS]
        simp only [Store.mk.injEq]
        refine ⟨trivial, ?_, trivial, trivial⟩
        rw [List.filter_filter]
        apply List.filter_congr
        intro c _
        rw [Bool.eq_iff_iff]
        simp [List.mem_cons, not_or, and_comm]
    · have hexp' : backupExpired now maxAge b = false := by
        cases h : backupExpired now maxAge b
        · rfl
        · exact absurd h hexp
      have hex' : ∀ c ∈ rest, backupExpired now maxAge c = true →
          existsD w.disk c.backupPath = true :=
        fun c hc hcexp => hex c (List.mem_cons_of_mem b hc) hcexp
      rw [List.foldl_cons, if_neg (by simp [hexp']), ih w hdl' hex',
        List.filter_cons, if_neg (by simp [hexp'])]

/-- **C4.**  Sorting newest-first, the retention sweep removes (row and
on-disk file) exactly the backups ranked beyond position `maxBackupSets`
that are also older than `maxBackupAge`; a backup beyond the count limit
but within the age limit is retained, and a backup within the count limit
is retained regardless of age — provided backup paths are pairwise
distinct and the store satisfies the documented invariant that every live
Backup row's file exists on disk (a row whose backup file is missing makes
`unlink` throw, and the per-item catch then retains the row). -/
theorem claim_C4_backup_retention_policy
    (now maxSets maxAge : Nat) (w : World)
    (hdist : w.store.backups.Pairwise (fun a b => a.backupPath ≠ b.backupPath))
    (hfiles : ∀ b ∈ w.store.backups, existsD w.disk b.backupPath = true) :
    (∀ b ∈ ((getBackupsS w.store).insertionSort newerEq).drop maxSets,
       backupExpired now maxAge b = true →
         b ∉ (cleanupBackupsCM now maxSets maxAge w).store.backups ∧
         existsD (cleanupBackupsCM now maxSets maxAge w).disk b.backupPath = false) ∧
    (∀ b ∈ ((getBackupsS w.store).insertionSort newerEq).drop maxSets,
       backupExpired now maxAge b = false →
         b ∈ (cleanupBackupsCM now maxSets maxAge w).store.backups ∧
         (existsD w.disk b.backupPath = true →
          existsD (cleanupBackupsCM now maxSets maxAge w).disk b.backupPath = true)) ∧
    (∀ b ∈ ((getBackupsS w.store).insertionSort newerEq).take maxSets,
       b ∈ (cleanupBackupsCM now maxSets maxAge w).store.backups ∧
       (existsD w.disk b.backupPath = true →
        existsD (cleanupBackupsCM now maxSets maxAge w).disk b.backupPath = true)) := by
  have hsym : ∀ {x y : BackupInfo},
      x.backupPath ≠ y.backupPath → y.backupPath ≠ x.backupPath :=
    fun h => Ne.symm h
  have hsymm : Symmetric (fun a b : BackupInfo => a.backupPath ≠ b.backupPath) :=
    fun x y h => Ne.symm h
  have hperm : List.Perm ((getBackupsS w.store).insertionSort newerEq)
      w.store.backups :=
    (List.perm_insertionSort _ _).trans (List.perm_insertionSort _ _)
  have hpairSorted :
      ((getBackupsS w.store).insertionSort newerEq).Pairwise
        (fun a b => a.backupPath ≠ b.backupPath) :=
    (hperm.pairwise_iff hsym).mpr hdist
  have hsplit :
      ((getBackupsS w.store).insertionSort newerEq).take maxSets ++
        ((getBackupsS w.store).insertionSort newerEq).drop maxSets =
      (getBackupsS w.store).insertionSort newerEq :=
    List.take_append_drop _ _
  have hpair2 := List.pairwise_append.1 (hsplit ▸ hpairSorted)
  obtain ⟨hpairTake, hpairDrop, hcross⟩ := hpair2
  have hchar : cleanupBackupsCM now maxSets maxAge w =
      ⟨w.disk.filter (fun e =>
          e.path ∉ ((((getBackupsS w.store).insertionSort newerEq).drop maxSets).filter
            (backupExpired now maxAge)).map (fun b => b.backupPath)),
       { w.store with backups := w.store.backups.filter (fun b =>
          b.backupPath ∉ ((((getBackupsS w.store).insertionSort newerEq).drop maxSets).filter
            (backupExpired now maxAge)).map (fun b => b.backupPath)) }⟩ :=
    retentionFold_char now maxAge _ w hpairDrop
      (fun b hb _ => hfiles b (hperm.subset (List.drop_subset _ _ hb)))
  refine ⟨?_, ?_, ?_⟩
  · intro b hb hexp
    have hbIn : b.backupPath ∈
        ((((getBackupsS w.store).insertionSort newerEq).drop maxSets).filter
          (backupExpired now maxAge)).map (fun b => b.backupPath) :=
      List.mem_map.2 ⟨b, List.mem_filter.2 ⟨hb, hexp⟩, rfl⟩
    constructor
    · intro hmem
      rw [hchar] at hmem
      simp only [List.mem_filter, decide_eq_true_eq] at hmem
      exact hmem.2 hbIn
    · rw [hchar]
      exact existsD_filter_notmem _ _ hbIn
  · intro b hb hexp
    have hbOut : b.backupPath ∉
        ((((getBackupsS w.store).insertionSort newerEq).drop maxSets).filter
          (backupExpired now maxAge)).map (fun b => b.backupPath) := by
      intro hin
      obtain ⟨c, hcf, hcp⟩ := List.mem_map.1 hin
      obtain ⟨hcDrop, hcExp⟩ := List.mem_filter.1 hcf
      have hcb : c ≠ b := by
        intro h
        rw [h, hexp] at hcExp
        cases hcExp
      exact hpairDrop.forall hsymm hcDrop hb hcb hcp
    constructor
    · rw [hchar]
      exact List.mem_filter.2
        ⟨hperm.subset (List.drop_subset _ _ hb), by simpa using hbOut⟩
    · intro hdisk
      rw [hchar]
      rw [existsD_filter_keep _ _ hbOut]
      exact hdisk
  · intro b hb
    have hbOut : b.backupPath ∉
        ((((getBackupsS w.store).insertionSort newerEq).drop maxSets).filter
          (backupExpired now maxAge)).map (fun b => b.backupPath) := by
      intro hin
      obtain ⟨c, hcf, hcp⟩ := List.mem_map.1 hin
      obtain ⟨hcDrop, -⟩ := List.mem_filter.1 hcf
      exact hcross b hb c hcDrop hcp.symm
    constructor
    · rw [hchar]
      exact List.mem_filter.2
        ⟨hperm.subset (List.take_subset _ _ hb), by simpa using hbOut⟩
    · intro hdisk
      rw [hchar]
      rw [existsD_filter_keep _ _ hbOut]
      exact hdisk

/-- Witness for C4: count limit 1, age limit 10, at time 100.  `b50`
(rank 2, age 50) is purged; `b90` (rank 1, age 10) is beyond the count
limit but young, and stays; `b95` (rank 0) is within the count limit and
stays. -/
theorem claim_C4_backup_retention_policy_witness :
    w4.store.backups.Pairwise (fun a b => a.backupPath ≠ b.backupPath) ∧
    (∀ b ∈ w4.store.backups, existsD w4.disk b.backupPath = true) ∧
    (b50 ∉ (cleanupBackupsCM 100 1 10 w4).store.backups ∧
     existsD (cleanupBackupsCM 100 1 10 w4).disk b50.backupPath = false) ∧
    (b90 ∈ (cleanupBackupsCM 100 1 10 w4).store.backups ∧
     (existsD w4.disk b90.backupPath = true →
      existsD (cleanupBackupsCM 100 1 10 w4).disk b90.backupPath = true)) ∧
    (b95 ∈ (cleanupBackupsCM 100 1 10 w4).store.backups ∧
     (existsD w4.disk b95.backupPath = true →
      existsD (cleanupBackupsCM 100 1 10 w4).disk b95.backupPath = true)) :=
  ⟨by decide, by decide,
   (claim_C4_backup_retention_policy 100 1 10 w4 (by decide) (by decide)).1 b50
     (by decide) (by decide),
   (claim_C4_backup_retention_policy 100 1 10 w4 (by decide) (by decide)).2.1 b90
     (by decide) (by decide),
   (claim_C4_backup_retention_policy 100 1 10 w4 (by decide) (by decide)).2.2 b95
     (by decide)⟩

/-! ### C7: getFromCache self-heals stale rows and refreshes access time -/

theorem readD_eq_none_of_not_existsD {d : Disk} {p : SPath}
    (h : existsD d p = false) : readD d p = none := by
  cases hr : readD d p with
  | none => rfl
  | some c =>
    have : existsD d p = true := (existsD_iff_readD d p).2 ⟨c, hr⟩
    rw [h] at this
    cases this

/-- **C7.**  If a TrackedFile row exists for `p` but no cache artifact is
found and the origin file is gone, `getFromCache` removes the stale row and
returns the not-found value (no error is propagated); and whenever
`getFromCache` returns a cache path, the row's `lastAccessed` has been
refreshed to the current time. -/
theorem claim_C7_get_from_cache_self_heal
    (p : SPath) (now : Nat) (cacheDir : String) (w : World) (f : FileInfo)
    (hrow : getFileS w.store p = some f) :
    (findCacheFile cacheDir p w.disk = none → existsD w.disk p = false →
       (getFromCacheM p now cacheDir w).1 = none ∧
       getFileS (getFromCacheM p now cacheDir w).2.store p = none) ∧
    ((getFromCacheM p now cacheDir w).1.isSome = true →
       getFileS (getFromCacheM p now cacheDir w).2.store p =
         some { f with lastAccessed := now }) := by
  constructor
  · intro hfc hgone
    have hrd : readD w.disk p = none := readD_eq_none_of_not_existsD hgone
    simp only [getFromCacheM, hrow, hfc, hrd]
    exact ⟨trivial, getFileS_deleteFileS_self p w.store⟩
  · intro hsome
    cases hfc : findCacheFile cacheDir p w.disk with
    | some cp =>
      simp only [getFromCacheM, hrow, hfc]
      rw [getFileS_updateFileAccessS, hrow]
      rfl
    | none =>
      cases hrd : readD w.disk p with
      | none =>
        simp only [getFromCacheM, hrow, hfc, hrd] at hsome
        cases hsome
      | some c =>
        simp only [getFromCacheM, hrow, hfc, hrd]
        rw [getFileS_updateFileAccessS, hrow]
        rfl

/-- Witness for C7: a tracked path with no cache artifact and no origin
file on disk. -/
theorem claim_C7_get_from_cache_self_heal_witness :
    getFileS (Store.mk [f1] [] [] []) p1 = some f1 ∧
    ((findCacheFile "/cache" p1 ([] : Disk) = none →
      existsD ([] : Disk) p1 = false →
        (getFromCacheM p1 200 "/cache" ⟨[], ⟨[f1], [], [], []⟩⟩).1 = none ∧
        getFileS (getFromCacheM p1 200 "/cache" ⟨[], ⟨[f1], [], [], []⟩⟩).2.store p1 =
          none) ∧
     ((getFromCacheM p1 200 "/cache" ⟨[], ⟨[f1], [], [], []⟩⟩).1.isSome = true →
        getFileS (getFromCacheM p1 200 "/cache" ⟨[], ⟨[f1], [], [], []⟩⟩).2.store p1 =
          some { f1 with lastAccessed := 200 })) :=
  ⟨by decide,
   claim_C7_get_from_cache_self_heal p1 200 "/cache" ⟨[], ⟨[f1], [], [], []⟩⟩ f1
     (by decide)⟩

/-! ### C5: cache cleanup removes the row but misses the artifact -/

/-- **C5 (code bug).**  `CacheManager.cleanup` rebuilds the artifact path
with `getCachePath`, which embeds the **current** clock value, not the
timestamp the artifact was created with.  At the failing input — artifact
created at t = 100, cleanup at t = 200 with max age 50 — the expired row is
removed from the store, but the on-disk artifact (whose name embeds `100`)
survives because the code probed a freshly-stamped path that names no file.
The spec and the code's own `existsSync`/`unlink` guard say the artifact
should be removed. -/
theorem claim_C5_cache_cleanup_artifact_left_behind :
    (cacheCleanup 50 200 "c" w5).store.files = [] ∧
    existsD (cacheCleanup 50 200 "c" w5).disk (getCachePath "c" p1 100) = true ∧
    getCachePath "c" p1 200 ≠ getCachePath "c" p1 100 := by
  decide

/-! ### C8: a per-item failure aborts the cache-cleanup sweep -/

/-- **C8, counterexample.**  The `cleanup` loop (cache.ts lines 177-183)
has no per-item try/catch: a `deleteFile` failure on the **first** expired
item escapes the loop (the outer catch logs and rethrows), so the
remaining expired items are not processed — their rows are untouched in
the error state.  This contradicts the claimed per-item isolation. -/
theorem claim_C8_cleanup_isolation_counterexample :
    getFilesByDateS w8.store (100 - 50) = [f8a, f8b, f8c] ∧
    cacheCleanupLoop (fun q => decide (q = p1)) 100 "c" [f8a, f8b, f8c] w8 =
      Except.error w8 ∧
    f8b ∈ w8.store.files ∧ f8c ∈ w8.store.files :=
  ⟨by decide, rfl, by decide, by decide⟩

/-- **C8, amended.**  A failure while deleting one item's row aborts the
cache-cleanup sweep: the loop returns the error raised at the failing item,
and every later item is left unprocessed (its row survives, up to rows
whose path was already deleted for an earlier item). -/
theorem claim_C8_cleanup_failure_aborts
    (failDel : SPath → Bool) (now : Nat) (cacheDir : String)
    (pre : List FileInfo) (b : FileInfo) (rest : List FileInfo) (w : World)
    (hpre : ∀ x ∈ pre, failDel x.path = false)
    (hb : failDel b.path = true) :
    ∃ w', cacheCleanupLoop failDel now cacheDir (pre ++ b :: rest) w =
        Except.error w' ∧
      ∀ r ∈ rest, r.path ∉ pre.map (fun x => x.path) →
        r ∈ w.store.files → r ∈ w'.store.files := by
  induction pre generalizing w with
  | nil =>
    refine ⟨⟨if existsD w.disk (getCachePath cacheDir b.path now) = true then
        unlinkD w.disk (getCachePath cacheDir b.path now) else w.disk, w.store⟩,
      ?_, ?_⟩
    · simp only [List.nil_append, cacheCleanupLoop, hb, if_true]
    · intro r _ _ hr
      exact hr
  | cons x pre' ih =>
    have hx : failDel x.path = false := hpre x (List.mem_cons_self x pre')
    have hpre' : ∀ y ∈ pre', failDel y.path = false :=
      fun y hy => hpre y (List.mem_cons_of_mem x hy)
    obtain ⟨w', hrun, hmem⟩ := ih
      (⟨if existsD w.disk (getCachePath cacheDir x.path now) = true then
          unlinkD w.disk (getCachePath cacheDir x.path now) else w.disk,
        deleteFileS x.path w.store⟩) hpre'
    refine ⟨w', ?_, ?_⟩
    · rw [List.cons_append, cacheCleanupLoop]
      simp only [hx]
      exact hrun
    · intro r hr hnp hrw
      have hrx : r.path ≠ x.path := by
        intro h
        exact hnp (by rw [List.map_cons, h]; exact List.mem_cons_self _ _)
      have hnp' : r.path ∉ pre'.map (fun x => x.path) := by
        intro h
        exact hnp (by rw [List.map_cons]; exact List.mem_cons_of_mem _ h)
      have hr1 : r ∈ (deleteFileS x.path w.store).files := by
        simp only [deleteFileS, List.mem_filter]
        exact ⟨hrw, by simpa using hrx⟩
      exact hmem r hr hnp' hr1

/-- Witness for the amended C8 theorem: failure on the second of three
expired rows; the third row survives in the error state. -/
theorem claim_C8_cleanup_failure_aborts_witness :
    (∀ x ∈ [f8a], (fun q => decide (q = f8b.path)) x.path = false) ∧
    (fun q => decide (q = f8b.path)) f8b.path = true ∧
    (∃ w', cacheCleanupLoop (fun q => decide (q = f8b.path)) 100 "c"
        ([f8a] ++ f8b :: [f8c]) w8 = Except.error w' ∧
      ∀ r ∈ [f8c], r.path ∉ [f8a].map (fun x => x.path) →
        r ∈ w8.store.files → r ∈ w'.store.files) :=
  ⟨by decide, by decide,
   claim_C8_cleanup_failure_aborts (fun q => decide (q = f8b.path)) 100 "c"
     [f8a] f8b [f8c] w8 (by decide) (by decide)⟩

/-! ### C10: artifact naming and the TrackedFile upsert -/

/-- **C10, counterexample.**  The artifact name is the sanitized origin
plus `Date.now()`, so two additions of the same origin **within the same
millisecond** produce the same artifact name: here both sequential calls at
time 5 return the identical cache path, contradicting "two additions of the
same origin never yield the same artifact name". -/
theorem claim_C10_unique_artifact_name_counterexample :
    (addToCacheM p1 3 5 "c" w1).1 = some (getCachePath "c" p1 5) ∧
    (addToCacheM p1 3 5 "c" (addToCacheM p1 3 5 "c" w1).2).1 =
      some (getCachePath "c" p1 5) := by
  decide

/-- **C10, amended.**  The artifact name is derived from the origin path
plus the creation timestamp, and is unique across additions taken at
**distinct** timestamps (two additions in the same millisecond collide);
a successful `addToCache` returns the dated cache path and upserts the
TrackedFile row with `lastAccessed = now`. -/
theorem claim_C10_add_to_cache_naming
    (cacheDir : String) (p : SPath) (size t1 t2 now : Nat) (w : World)
    (c : List Nat) (ht : t1 ≠ t2) (hrd : readD w.disk p = some c) :
    getCachePath cacheDir p t1 ≠ getCachePath cacheDir p t2 ∧
    (addToCacheM p size now cacheDir w).1 = some (getCachePath cacheDir p now) ∧
    getFileS (addToCacheM p size now cacheDir w).2.store p =
      some ⟨p, size, none, now⟩ := by
  refine ⟨?_, ?_, ?_⟩
  · intro h
    apply ht
    have h1 : safeName p ++ "_" ++ natToString t1 =
        safeName p ++ "_" ++ natToString t2 := congrArg SPath.name h
    have h2 := congrArg String.data h1
    simp only [String.data_append] at h2
    exact natToString_injective (String.ext (List.append_cancel_left h2))
  · simp only [addToCacheM, hrd]
  · simp only [addToCacheM, hrd]
    exact getFileS_addFileS_self ⟨p, size, none, now⟩ w.store

/-- Witness for the amended C10 theorem at distinct timestamps 5 and 6. -/
theorem claim_C10_add_to_cache_naming_witness :
    (5 : Nat) ≠ 6 ∧ readD w1.disk p1 = some [1, 2, 3] ∧
    (getCachePath "/cache" p1 5 ≠ getCachePath "/cache" p1 6 ∧
     (addToCacheM p1 3 7 "/cache" w1).1 = some (getCachePath "/cache" p1 7) ∧
     getFileS (addToCacheM p1 3 7 "/cache" w1).2.store p1 =
       some ⟨p1, 3, none, 7⟩) :=
  ⟨by decide, by decide,
   claim_C10_add_to_cache_naming "/cache" p1 3 5 6 7 w1 [1, 2, 3] (by decide)
     (by decide)⟩

/-! ### C6: the time gate makes a second cleanup a no-op -/

theorem checkAndCleanup_noop
    (now interval maxCacheAge maxSets maxBackupAge : Nat) (cacheDir : String)
    (w : World) (h : ¬ interval ≤ now - getLastCleanupTimeS w.store) :
    checkAndCleanup false now interval maxCacheAge maxSets maxBackupAge
      cacheDir w = w := by
  unfold checkAndCleanup
  rw [if_neg]
  rintro (hf | hi)
  · cases hf
  · exact h hi

theorem getLastCleanupTimeS_after_run
    (force : Bool) (now interval maxCacheAge maxSets maxBackupAge : Nat)
    (cacheDir : String) (w : World)
    (htrig : force = true ∨ interval ≤ now - getLastCleanupTimeS w.store) :
    getLastCleanupTimeS
      (checkAndCleanup force now interval maxCacheAge maxSets maxBackupAge
        cacheDir w).store = now := by
  unfold checkAndCleanup
  rw [if_pos htrig]
  exact getLastCleanupTimeS_update now _

/-- **C6.**  If a retention cleanup actually ran at `now1` (forced, or the
interval had elapsed), then a second, unforced call at any `now2` within
the configured interval of `now1` is a complete no-op: it returns the world
unchanged — no rows, no files, and no `lastCleanupTime` change. -/
theorem claim_C6_second_cleanup_noop
    (force1 : Bool) (now1 now2 interval maxCacheAge maxSets maxBackupAge : Nat)
    (cacheDir : String) (w : World)
    (htrig : force1 = true ∨ interval ≤ now1 - getLastCleanupTimeS w.store)
    (hwithin : now2 - now1 < interval) :
    checkAndCleanup false now2 interval maxCacheAge maxSets maxBackupAge cacheDir
        (checkAndCleanup force1 now1 interval maxCacheAge maxSets maxBackupAge
          cacheDir w) =
      checkAndCleanup force1 now1 interval maxCacheAge maxSets maxBackupAge
        cacheDir w := by
  apply checkAndCleanup_noop
  rw [getLastCleanupTimeS_after_run force1 now1 interval maxCacheAge maxSets
    maxBackupAge cacheDir w htrig]
  omega

/-- Witness for C6: a forced first cleanup at t = 100, second call at
t = 150 with a 100 ms interval. -/
theorem claim_C6_second_cleanup_noop_witness :
    ((true : Bool) = true ∨
      (100 : Nat) ≤ 100 - getLastCleanupTimeS w4.store) ∧
    (150 - 100 : Nat) < 100 ∧
    checkAndCleanup false 150 100 50 1 10 "c"
        (checkAndCleanup true 100 100 50 1 10 "c" w4) =
      checkAndCleanup true 100 100 50 1 10 "c" w4 :=
  ⟨Or.inl rfl, by decide,
   claim_C6_second_cleanup_noop true 100 150 100 50 1 10 "c" w4 (Or.inl rfl)
     (by decide)⟩

/-! ### C3: restore lands in the default screenshot directory -/

/-- **C3, counterexample.**  The restore loop copies the backup to
`join(targetDir, basename(path))` with `targetDir =
CONFIG.defaultScreenshotDirs[0]` (restore.ts lines 38, 131, 136), not to
the original path.  For a marker whose original path `/other/a.png` lies
outside the target directory `/shots`, the restore succeeds, yet no file
and no TrackedFile row exist at the **original** path afterwards. -/
theorem claim_C3_restore_counterexample :
    (restoreOneFromBackup 200 "/shots" "/cache" m3 w3).1 =
      some ⟨"/shots", "a.png"⟩ ∧
    existsD (restoreOneFromBackup 200 "/shots" "/cache" m3 w3).2.disk m3.path =
      false ∧
    getFileS (restoreOneFromBackup 200 "/shots" "/cache" m3 w3).2.store m3.path =
      none := by
  decide

/-- **C3, amended.**  Deleting an origin `p` with content `c` and then
restoring its marker produces a file at `join(defaultScreenshotDir,
basename p)` whose bytes equal the pre-delete content `c`, re-inserts a
TrackedFile row for that **target** path, and removes the
DeletedFileMarker for the original path.  (When `p.dir` is the default
screenshot directory the target coincides with the original path.) -/
theorem claim_C3_delete_restore_roundtrip
    (now1 now2 : Nat) (backupDir targetDir cacheDir : String) (p : SPath)
    (w : World) (c : List Nat)
    (hrd : readD w.disk p = some c)
    (hpd : p.dir ≠ backupDir)
    (hct : cacheDir ≠ targetDir) :
    (⟨p, now1, ⟨backupDir, p.name⟩, c.length⟩ : DeletedFileInfo) ∈
      (deleteOne now1 backupDir p w).store.deletedFiles ∧
    (restoreOneFromBackup now2 targetDir cacheDir
        ⟨p, now1, ⟨backupDir, p.name⟩, c.length⟩
        (deleteOne now1 backupDir p w)).1 = some ⟨targetDir, p.name⟩ ∧
    readD (restoreOneFromBackup now2 targetDir cacheDir
        ⟨p, now1, ⟨backupDir, p.name⟩, c.length⟩
        (deleteOne now1 backupDir p w)).2.disk ⟨targetDir, p.name⟩ = some c ∧
    getFileS (restoreOneFromBackup now2 targetDir cacheDir
        ⟨p, now1, ⟨backupDir, p.name⟩, c.length⟩
        (deleteOne now1 backupDir p w)).2.store ⟨targetDir, p.name⟩ =
      some ⟨⟨targetDir, p.name⟩, c.length, some now2, now2⟩ ∧
    (∀ m' ∈ (restoreOneFromBackup now2 targetDir cacheDir
        ⟨p, now1, ⟨backupDir, p.name⟩, c.length⟩
        (deleteOne now1 backupDir p w)).2.store.deletedFiles, m'.path ≠ p) := by
  have hda : existsD w.disk p = true := (existsD_iff_readD w.disk p).2 ⟨c, hrd⟩
  have hbp_ne : (SPath.mk backupDir p.name) ≠ p :=
    fun h => hpd ((congrArg SPath.dir h).symm)
  have htp_ne : (SPath.mk targetDir p.name) ≠
      getCachePath cacheDir ⟨targetDir, p.name⟩ now2 :=
    fun h => hct ((congrArg SPath.dir h).symm)
  have hdisk1 : (deleteOne now1 backupDir p w).disk =
      unlinkD (writeD w.disk ⟨backupDir, p.name⟩ c now1) p := by
    unfold deleteOne deleteOneUpTo
    simp only [hda, hrd, if_true, delSteps, List.take, List.take_nil,
      List.foldl, List.foldl_nil]
  have hstore1 : (deleteOne now1 backupDir p w).store =
      removeFromCacheS p (addDeletedFileS p ⟨backupDir, p.name⟩ c.length now1
        (addBackupS ⟨p, ⟨backupDir, p.name⟩, c.length, now1⟩ w.store)) := by
    unfold deleteOne deleteOneUpTo
    simp only [hda, hrd, if_true, delSteps, List.take, List.take_nil,
      List.foldl, List.foldl_nil]
  have hbex : existsD (deleteOne now1 backupDir p w).disk
      ⟨backupDir, p.name⟩ = true := by
    rw [hdisk1, existsD_unlinkD_ne hbp_ne]
    exact existsD_writeD_self _ _ _ _
  have hbrd : readD (deleteOne now1 backupDir p w).disk
      ⟨backupDir, p.name⟩ = some c := by
    rw [hdisk1, readD_unlinkD_ne hbp_ne]
    exact readD_writeD_self _ _ _ _
  refine ⟨?_, ?_, ?_, ?_, ?_⟩
  · rw [hstore1, deletedFiles_removeFromCacheS]
    simp [addDeletedFileS]
  · simp only [restoreOneFromBackup, hbex, if_true, hbrd, addToCacheM,
      readD_writeD_self]
  · simp only [restoreOneFromBackup, hbex, if_true, hbrd, addToCacheM,
      readD_writeD_self]
    rw [readD_writeD_ne _ _ htp_ne]
    exact readD_writeD_self _ _ _ _
  · simp only [restoreOneFromBackup, hbex, if_true, hbrd, addToCacheM,
      readD_writeD_self]
    exact getFileS_addFileS_self ⟨⟨targetDir, p.name⟩, c.length, some now2, now2⟩ _
  · simp only [restoreOneFromBackup, hbex, if_true, hbrd, addToCacheM,
      readD_writeD_self, removeFromDeletedFilesS]
    intro m' hm'
    simp only [List.mem_filter, decide_eq_true_eq] at hm'
    exact hm'.2

/-- Witness for the amended C3 theorem: delete `/pics/a.png` (content
`[1,2,3]`) at t = 100, restore at t = 200 into `/shots`. -/
theorem claim_C3_delete_restore_roundtrip_witness :
    readD w1.disk p1 = some [1, 2, 3] ∧
    p1.dir ≠ "/bk" ∧
    ("/cache" : String) ≠ "/shots" ∧
    ((⟨p1, 100, ⟨"/bk", p1.name⟩, 3⟩ : DeletedFileInfo) ∈
       (deleteOne 100 "/bk" p1 w1).store.deletedFiles ∧
     (restoreOneFromBackup 200 "/shots" "/cache"
         ⟨p1, 100, ⟨"/bk", p1.name⟩, 3⟩ (deleteOne 100 "/bk" p1 w1)).1 =
       some ⟨"/shots", p1.name⟩ ∧
     readD (restoreOneFromBackup 200 "/shots" "/cache"
         ⟨p1, 100, ⟨"/bk", p1.name⟩, 3⟩ (deleteOne 100 "/bk" p1 w1)).2.disk
       ⟨"/shots", p1.name⟩ = some [1, 2, 3] ∧
     getFileS (restoreOneFromBackup 200 "/shots" "/cache"
         ⟨p1, 100, ⟨"/bk", p1.name⟩, 3⟩ (deleteOne 100 "/bk" p1 w1)).2.store
       ⟨"/shots", p1.name⟩ =
       some ⟨⟨"/shots", p1.name⟩, 3, some 200, 200⟩ ∧
     (∀ m' ∈ (restoreOneFromBackup 200 "/shots" "/cache"
         ⟨p1, 100, ⟨"/bk", p1.name⟩, 3⟩
         (deleteOne 100 "/bk" p1 w1)).2.store.deletedFiles, m'.path ≠ p1)) :=
  ⟨by decide, by decide, by decide,
   claim_C3_delete_restore_roundtrip 100 200 "/bk" "/shots" "/cache" p1 w1
     [1, 2, 3] (by decide) (by decide) (by decide)⟩
